import Mathlib

/-!
Verification of the 23andMe-to-TOML converter (`src/parser/parse.py`).

The Python source is shallowly embedded below.  Strings are modelled by
Lean `String`; the handful of Python `str` methods the source uses
(`strip`, `upper`, `split('\t')`, `startswith`, `in`, `count`, `isdigit`,
`int(...)`) are given explicit executable models (`pyStrip`, `pyUpper`,
`pySplitTab`, `pyStartsWith`, `pyContains`, `pyCountSubstr`, `pyIsDigit`,
`parsePyInt`).  These models cover the ASCII range, the alphabet of every
token the source's tables recognise; Python's Unicode case folding for
`upper` and numeric underscores for `int` are not modelled.  Python's
Unicode `str.isdigit`/`int()` semantics, under which the digit guard of
`encode_chromosome` is not sufficient to keep `int()` from raising, are
modelled separately (`pyCharDecimal?` down to `encode_chromosome_unicode`)
and decide claim C5.  Machine-level hashing (`hashlib.sha256`) is
embedded as an executable SHA-256 over `Nat` words reduced mod 2^32.
Python `float` ratios are modelled by exact rationals `ℚ`; the only float
operation the source performs on them is division and 6-decimal fixed
formatting, and no verified property depends on the last formatted digit.
-/

/-! ### Python string-method models -/

/-- Whitespace recognised by Python `str.strip()` (ASCII range). -/
def pyWs (c : Char) : Bool :=
  c = ' ' || c = '\t' || c = '\n' || c = '\r' || c = '\x0b' || c = '\x0c'

/-- Model of Python `str.strip()`: drop whitespace from both ends. -/
def pyStrip (s : String) : String :=
  ⟨((s.data.dropWhile pyWs).reverse.dropWhile pyWs).reverse⟩

/-- Model of Python `str.upper()` (ASCII case folding). -/
def pyUpper (s : String) : String :=
  ⟨s.data.map Char.toUpper⟩

/-- Model of Python `str.startswith(pre)`. -/
def pyStartsWith (s pre : String) : Bool :=
  pre.data.isPrefixOf s.data

/-- Splitting a character list at every `'\t'`; `[]` yields `[[]]`,
mirroring Python `''.split('\t') == ['']`. -/
def splitTabAux : List Char → List (List Char)
  | [] => [[]]
  | c :: rest =>
    let r := splitTabAux rest
    if c = '\t' then [] :: r
    else
      match r with
      | h :: t => (c :: h) :: t
      | [] => [[c]]

/-- Model of Python `str.split('\t')`. -/
def pySplitTab (s : String) : List String :=
  (splitTabAux s.data).map String.mk

/-- Substring test on character lists (model of Python `pat in s`). -/
def containsSub (pat : List Char) : List Char → Bool
  | [] => pat.isEmpty
  | c :: rest => pat.isPrefixOf (c :: rest) || containsSub pat rest

/-- Model of Python `pat in s` for strings. -/
def pyContains (s pat : String) : Bool :=
  containsSub pat.data s.data

/-- Fuel-driven worker for non-overlapping substring counting. -/
def countOccGo (pat : List Char) : Nat → List Char → Nat
  | 0, _ => 0
  | _ + 1, [] => 0
  | fuel + 1, c :: rest =>
    if pat.isPrefixOf (c :: rest) then
      1 + countOccGo pat fuel ((c :: rest).drop pat.length)
    else
      countOccGo pat fuel rest

/-- Model of Python `s.count(pat)`: greedy non-overlapping occurrences
counted left to right (`s.count('') = len(s)+1` as in Python). -/
def pyCountSubstr (s pat : String) : Nat :=
  if pat.data.isEmpty then s.data.length + 1
  else countOccGo pat.data s.data.length s.data

/-- Model of Python `str.isdigit()` (ASCII digits). -/
def pyIsDigit (s : String) : Bool :=
  !s.data.isEmpty && s.data.all Char.isDigit

/-- Decimal value of a digit list. -/
def digitsToNat (cs : List Char) : Nat :=
  cs.foldl (fun a c => 10 * a + (c.toNat - 48)) 0

/-- Value of an all-digit list, `none` if empty or a non-digit occurs. -/
def digitsVal (cs : List Char) : Option Nat :=
  if !cs.isEmpty && cs.all Char.isDigit then some (digitsToNat cs) else none

/-- Model of Python `int(s)` on an already-stripped field: optional single
sign followed by a non-empty digit run (Python's numeric underscores and
surrounding whitespace are not modelled; the source strips fields first). -/
def parsePyInt (s : String) : Option Int :=
  let t := pyStrip s
  match t.data with
  | '+' :: rest => (digitsVal rest).map Int.ofNat
  | '-' :: rest => (digitsVal rest).map (fun n => -(n : Int))
  | cs => (digitsVal cs).map Int.ofNat

/-! ### SHA-256 (`hashlib.sha256`, FIPS 180-4), over `Nat` mod 2^32 -/

/-- 2^32, the word modulus of SHA-256. -/
def w32 : Nat := 4294967296

/-- Right rotation of a 32-bit word stored as a `Nat`, reduced back into
word range. -/
def rotr32 (x k : Nat) : Nat :=
  ((x >>> k) ||| (x <<< (32 - k))) % w32

/-- The schedule sigma-0 function of SHA-256. -/
def schedSig0 (x : Nat) : Nat :=
  (rotr32 x 7) ^^^ ((rotr32 x 18) ^^^ (x >>> 3))

/-- The schedule sigma-1 function of SHA-256. -/
def schedSig1 (x : Nat) : Nat :=
  (rotr32 x 17) ^^^ ((rotr32 x 19) ^^^ (x >>> 10))

/-- The compression Sigma-0 function of SHA-256. -/
def compSig0 (x : Nat) : Nat :=
  (rotr32 x 2) ^^^ ((rotr32 x 13) ^^^ (rotr32 x 22))

/-- The compression Sigma-1 function of SHA-256. -/
def compSig1 (x : Nat) : Nat :=
  (rotr32 x 6) ^^^ ((rotr32 x 11) ^^^ (rotr32 x 25))

/-- The choice function of SHA-256, with complement as xor against the
all-ones word. -/
def sha256Ch (x y z : Nat) : Nat :=
  (x &&& y) ^^^ ((x ^^^ (w32 - 1)) &&& z)

/-- The majority function of SHA-256. -/
def sha256Maj (x y z : Nat) : Nat :=
  ((x &&& y) ^^^ (x &&& z)) ^^^ (y &&& z)

/-- The 64 SHA-256 round constants of FIPS 180-4 (decimal). -/
def sha256K : List Nat :=
  [1116352408, 1899447441, 3049323471, 3921009573, 961987163,
   1508970993, 2453635748, 2870763221, 3624381080, 310598401,
   607225278, 1426881987, 1925078388, 2162078206, 2614888103,
   3248222580, 3835390401, 4022224774, 264347078, 604807628,
   770255983, 1249150122, 1555081692, 1996064986, 2554220882,
   2821834349, 2952996808, 3210313671, 3336571891, 3584528711,
   113926993, 338241895, 666307205, 773529912, 1294757372,
   1396182291, 1695183700, 1986661051, 2177026350, 2456956037,
   2730485921, 2820302411, 3259730800, 3345764771, 3516065817,
   3600352804, 4094571909, 275423344, 430227734, 506948616,
   659060556, 883997877, 958139571, 1322822218, 1537002063,
   1747873779, 1955562222, 2024104815, 2227730452, 2361852424,
   2428436474, 2756734187, 3204031479, 3329325298]

/-- The SHA-256 initial hash state (decimal). -/
def sha256H0 : List Nat :=
  [1779033703, 3144134277, 1013904242, 2773480762,
   1359893119, 2600822924, 528734635, 1541459225]

/-- UTF-8 encoding of one character (model of `str.encode('utf-8')`). -/
def charUtf8 (c : Char) : List Nat :=
  let n := c.toNat
  if n < 0x80 then [n]
  else if n < 0x800 then
    [0xc0 ||| (n >>> 6), 0x80 ||| (n &&& 0x3f)]
  else if n < 0x10000 then
    [0xe0 ||| (n >>> 12), 0x80 ||| ((n >>> 6) &&& 0x3f), 0x80 ||| (n &&& 0x3f)]
  else
    [0xf0 ||| (n >>> 18), 0x80 ||| ((n >>> 12) &&& 0x3f),
     0x80 ||| ((n >>> 6) &&& 0x3f), 0x80 ||| (n &&& 0x3f)]

/-- UTF-8 byte sequence of a string. -/
def strUtf8 (s : String) : List Nat :=
  s.data.flatMap charUtf8

/-- Big-endian base-256 digits of `n`, `k` bytes. -/
def beBytes : Nat → Nat → List Nat
  | 0, _ => []
  | k + 1, n => (n >>> (8 * k)) % 256 :: beBytes k n

/-- SHA-256 padding: append `0x80`, zero bytes to 56 mod 64, and the
64-bit big-endian bit length. -/
def sha256Pad (msg : List Nat) : List Nat :=
  let len := msg.length
  let zeros := (64 - ((len + 9) % 64)) % 64
  msg ++ [0x80] ++ List.replicate zeros 0 ++ beBytes 8 (8 * len)

/-- Combine four bytes into one big-endian 32-bit word. -/
def word32OfBytes : List Nat → Nat
  | [a, b, c, d] => ((a <<< 24) ||| (b <<< 16) ||| (c <<< 8) ||| d) % w32
  | _ => 0

/-- Fuel-driven split of a byte list into 16-word (64-byte) blocks. -/
def blocksGo : Nat → List Nat → List (List Nat)
  | 0, _ => []
  | _ + 1, [] => []
  | fuel + 1, bs =>
    (List.range 16).map (fun i => word32OfBytes ((bs.drop (4 * i)).take 4))
      :: blocksGo fuel (bs.drop 64)

/-- One message-schedule extension step. -/
def nextW (ws : List Nat) : Nat :=
  let n := ws.length
  (schedSig1 (ws.getD (n - 2) 0) + ws.getD (n - 7) 0 +
   schedSig0 (ws.getD (n - 15) 0) + ws.getD (n - 16) 0) % w32

/-- Extend the 16-word schedule by `k` further words. -/
def extendW : Nat → List Nat → List Nat
  | 0, ws => ws
  | k + 1, ws => extendW k (ws ++ [nextW ws])

/-- One SHA-256 compression round on state `[a,b,c,d,e,f,g,h]`. -/
def sha256Round (st : List Nat) (wk : Nat × Nat) : List Nat :=
  match st with
  | [a, b, c, d, e, f, g, h] =>
    let t1 := (h + compSig1 e + sha256Ch e f g + wk.2 + wk.1) % w32
    let t2 := (compSig0 a + sha256Maj a b c) % w32
    [(t1 + t2) % w32, a, b, c, (d + t1) % w32, e, f, g]
  | other => other

/-- Process one 16-word block into the running hash state. -/
def sha256Block (hs : List Nat) (block : List Nat) : List Nat :=
  let ws := extendW 48 block
  let st := (ws.zip sha256K).foldl sha256Round hs
  (hs.zip st).map (fun p => (p.1 + p.2) % w32)

/-- SHA-256 digest of a byte list, as eight 32-bit words. -/
def sha256Words (msg : List Nat) : List Nat :=
  let bs := sha256Pad msg
  (blocksGo (bs.length + 1) bs).foldl sha256Block sha256H0

/-- Lowercase hexadecimal digit. -/
def hexDigit (n : Nat) : Char :=
  if n < 10 then Char.ofNat (48 + n) else Char.ofNat (87 + n)

/-- Eight lowercase hex digits of a 32-bit word, most significant first. -/
def wordHex (x : Nat) : List Char :=
  [28, 24, 20, 16, 12, 8, 4, 0].map (fun k => hexDigit ((x >>> k) % 16))

/-- Model of `hashlib.sha256(s.encode('utf-8')).hexdigest()`. -/
def sha256Hex (s : String) : String :=
  ⟨(sha256Words (strUtf8 s)).flatMap wordHex⟩

/-! ### Data model -/

/-- The marker dictionary built in `parse_23andme_file` (lines 189-198):
encoded `chromosome`, `position`, `allele1`, `allele2`, plus the original
text fields kept for reference. -/
structure Marker where
  rsid : String
  chromosome : Nat
  position : Nat
  allele1 : Nat
  allele2 : Nat
  raw_chromosome : String
  raw_allele1 : String
  raw_allele2 : String
deriving DecidableEq, Repr

/-! ### Encoder (`encode_allele`, `encode_chromosome`) -/

/-- `encode_allele` (lines 70-79): case-insensitive `A=1, T=2, G=3, C=4`;
the dict entries `0`, `-`, `D`, `I` map to `0`, as does the `.get`
default, so all non-`ATGC` input yields `0`. -/
def encode_allele (allele : String) : Nat :=
  let u := pyUpper allele
  if u = "A" then 1
  else if u = "T" then 2
  else if u = "G" then 3
  else if u = "C" then 4
  else 0

/-- `encode_chromosome` (lines 81-97): digit strings with value 1-22 map
to that value; otherwise case-insensitive `X`→23, `Y`→24, `MT`/`M`→25;
everything else → 0.  Note the `elif` chain: a digit string out of range
falls directly to `return 0`. -/
def encode_chromosome (chromosome : String) : Nat :=
  if pyIsDigit chromosome then
    let n := digitsToNat chromosome.data
    if 1 ≤ n ∧ n ≤ 22 then n else 0
  else if pyUpper chromosome = "X" then 23
  else if pyUpper chromosome = "Y" then 24
  else if pyUpper chromosome = "MT" ∨ pyUpper chromosome = "M" then 25
  else 0

/-- Unicode decimal-digit value of a character, as Python `int()` reads
it: ASCII `0`-`9` and the Arabic-Indic digits `٠`-`٩` (U+0660-U+0669).
These are the decimal-digit (category Nd) ranges this development
evaluates; the remaining Nd ranges behave like the Arabic-Indic one. -/
def pyCharDecimal? (c : Char) : Option Nat :=
  if c.isDigit then some (c.toNat - 48)
  else if 1632 ≤ c.toNat ∧ c.toNat ≤ 1641 then some (c.toNat - 1632)
  else none

/-- Python per-character `str.isdigit()`: true on decimal digits and
also on digit characters with no decimal value — the superscripts
`²` (U+00B2), `³` (U+00B3) and `¹` (U+00B9) — which are exactly the
characters `int()` rejects although `isdigit` accepts them. -/
def pyCharIsDigit (c : Char) : Bool :=
  (pyCharDecimal? c).isSome ||
    decide (c.toNat = 178) || decide (c.toNat = 179) || decide (c.toNat = 185)

/-- Python `str.isdigit()` under Unicode semantics, on the modelled
character ranges. -/
def pyIsDigitUnicode (s : String) : Bool :=
  !s.data.isEmpty && s.data.all pyCharIsDigit

/-- The decimal values of a character run, `none` as soon as one
character has no decimal value. -/
def decimalValues? : List Char → Option (List Nat)
  | [] => some []
  | c :: rest =>
    match pyCharDecimal? c, decimalValues? rest with
    | some d, some ds => some (d :: ds)
    | _, _ => none

/-- Python `int(s)` on an `isdigit`-true string: the base-10 value of
the per-character decimal values when every character has one, and
`none` — a raised `ValueError` — when some character (e.g. `²`) is a
digit without a decimal value. -/
def pyIntOfDigits? (s : String) : Option Nat :=
  (decimalValues? s.data).map (fun ds => ds.foldl (fun a d => 10 * a + d) 0)

/-- `encode_chromosome` (lines 81-97) under the Unicode semantics of
`isdigit`/`int()`: when the digit guard of line 86 passes but the
`int()` call of line 87 raises `ValueError`, the exception escapes the
function — modelled as `none`.  Every other path returns `some` of the
source's value. -/
def encode_chromosome_unicode (chromosome : String) : Option Nat :=
  if pyIsDigitUnicode chromosome then
    match pyIntOfDigits? chromosome with
    | none => none
    | some n => some (if 1 ≤ n ∧ n ≤ 22 then n else 0)
  else if pyUpper chromosome = "X" then some 23
  else if pyUpper chromosome = "Y" then some 24
  else if pyUpper chromosome = "MT" ∨ pyUpper chromosome = "M" then some 25
  else some 0

/-! ### Marker validator (`validate_genetic_marker`) -/

/-- The literal allele token set of line 125. -/
def validAlleleTokens : List String := ["A", "T", "G", "C", "0", "-", "D", "I"]

/-- `validate_genetic_marker` (lines 99-129): exactly 5 fields, id text
begins with `rs` or `i`, chromosome encodes non-zero, position parses as
an integer > 0, both alleles are members of the literal token set
(a case-sensitive membership test in the source). -/
def validate_genetic_marker (fields : List String) : Bool :=
  match fields with
  | [rsid, chromosome, position, allele1, allele2] =>
    if !(pyStartsWith rsid "rs" || pyStartsWith rsid "i") then false
    else if encode_chromosome chromosome = 0 then false
    else
      match parsePyInt position with
      | none => false
      | some pos =>
        if pos ≤ 0 then false
        else decide (allele1 ∈ validAlleleTokens) &&
             decide (allele2 ∈ validAlleleTokens)
  | _ => false

/-! ### Quality analyzer (`calculate_quality_metrics`) -/

/-- One iteration of the metric loop (lines 26-47), acting on the
accumulator `(missing_calls, heterozygous, transitions, transversions)`.
`sorted([a1, a2])` is `(min, max)`. -/
def qualityStep (acc : Nat × Nat × Nat × Nat) (m : Marker) : Nat × Nat × Nat × Nat :=
  let (missing, het, ti, tv) := acc
  if m.allele1 = 0 ∨ m.allele2 = 0 then (missing + 1, het, ti, tv)
  else if (m.allele1 ∈ [1, 2, 3, 4] ∧ m.allele2 ∈ [1, 2, 3, 4] : Prop) then
    if m.allele1 ≠ m.allele2 then
      let a1 := min m.allele1 m.allele2
      let a2 := max m.allele1 m.allele2
      if (a1 = 1 ∧ a2 = 3) ∨ (a1 = 2 ∧ a2 = 4) then (missing, het + 1, ti + 1, tv)
      else if ((a1, a2) ∈ [(1, 2), (1, 4), (2, 3), (3, 4)] : Prop) then
        (missing, het + 1, ti, tv + 1)
      else (missing, het + 1, ti, tv)
    else acc
  else acc

/-- The four counters accumulated by the metric loop. -/
def qualityCounts (markers : List Marker) : Nat × Nat × Nat × Nat :=
  markers.foldl qualityStep (0, 0, 0, 0)

/-- `calculate_quality_metrics` (lines 12-55).  Python float division is
modelled by exact rational division, written with the kernel-evaluable
constructor `mkRat` (`mkRat a b` is `(a : ℚ) / b`, see
`Rat.mkRat_eq_div`); the guards mirror lines 49-53. -/
def calculate_quality_metrics (markers : List Marker) : ℚ × ℚ × ℚ :=
  if markers = [] then (0, 0, 0)
  else
    let total := markers.length
    let (missing, het, ti, tv) := qualityCounts markers
    let valid := total - missing
    ((if 0 < total then mkRat valid total else 0),
     (if 0 < valid then mkRat het valid else 0),
     (if 0 < tv then mkRat ti tv else 0))

/-! ### Hasher (`generate_challenge_hash`) -/

/-- The f-string fragment one marker contributes to the hash buffer
(line 64): id, chromosome code, position, allele codes, no separators. -/
def markerHashString (m : Marker) : String :=
  m.rsid ++ toString m.chromosome ++ toString m.position ++
    toString m.allele1 ++ toString m.allele2

/-- The hash buffer `data_string` built by the loop of lines 62-64. -/
def dataString (markers : List Marker) : String :=
  markers.foldl (fun acc m => acc ++ markerHashString m) ""

/-- `generate_challenge_hash` (lines 57-68). -/
def generate_challenge_hash (markers : List Marker) : String :=
  sha256Hex (dataString markers)

/-! ### Loader / parser (`parse_23andme_file`) -/

/-- The distinct fatal error sites of `parse_23andme_file`: the
`ValueError` raises of lines 142 (empty file), 152 (no data) and 161
(invalid headers, carrying the found header list). -/
inductive LoadError where
  | emptyInput : LoadError
  | noData : LoadError
  | invalidHeader (found : List String) : LoadError
deriving DecidableEq, Repr

/-- Field list of one stripped data line: split on tabs, strip each field
(line 178). -/
def lineFields (t : String) : List String :=
  (pySplitTab t).map pyStrip

/-- Marker construction from a validated field list (lines 187-198).
The fallback branch is never reached: validation guarantees five fields
and a parsable positive position. -/
def mkMarker (fields : List String) : Marker :=
  match fields with
  | [rsid, chromosome, position, allele1, allele2] =>
    { rsid := rsid
      chromosome := encode_chromosome chromosome
      position := ((parsePyInt position).getD 0).toNat
      allele1 := encode_allele allele1
      allele2 := encode_allele allele2
      raw_chromosome := chromosome
      raw_allele1 := allele1
      raw_allele2 := allele2 }
  | _ =>
    { rsid := "", chromosome := 0, position := 0, allele1 := 0, allele2 := 0,
      raw_chromosome := "", raw_allele1 := "", raw_allele2 := "" }

/-- The data loop of lines 166-204: stop once `processed ≥ max_markers`,
skip blank lines silently, count invalid rows as skipped, append a marker
for each valid row.  Returns the marker list (in file order) and the
final skipped count. -/
def parseDataLines (maxMarkers : Nat) : List String → Nat → Nat → List Marker × Nat
  | [], _, skipped => ([], skipped)
  | line :: rest, processed, skipped =>
    if maxMarkers ≤ processed then ([], skipped)
    else
      let t := pyStrip line
      if t = "" then parseDataLines maxMarkers rest processed skipped
      else
        let fields := lineFields t
        if validate_genetic_marker fields then
          let r := parseDataLines maxMarkers rest (processed + 1) skipped
          (mkMarker fields :: r.1, r.2)
        else parseDataLines maxMarkers rest processed (skipped + 1)

/-- The required header names of line 159. -/
def expectedHeaders : List String :=
  ["rsid", "chromosome", "position", "allele1", "allele2"]

/-- Worker for the comment-skipping scan of lines 145-149, carrying the
running index of the `for i, line in enumerate(...)` loop. -/
def findDataStartAux : List String → Nat → Nat
  | [], _ => 0
  | l :: rest, i =>
    if !pyStartsWith (pyStrip l) "#" then i else findDataStartAux rest (i + 1)

/-- The comment-skipping scan of lines 145-149: `data_start` is the index
of the first line whose stripped text does not begin with `#`, and keeps
the initial value 0 when no such line exists (the loop never breaks), as
in the source. -/
def findDataStart (lines : List String) : Nat :=
  findDataStartAux lines 0

/-- `parse_23andme_file` (lines 131-215) on the list of input lines
(file contents split at newlines; the source strips every line it
consults, so the terminators are immaterial).  Because `data_start`
stays 0 on an all-comment file, the `no data` check of line 151 compares
that stale 0 against the line count. -/
def parse_23andme_file (lines : List String) (maxMarkers : Nat) :
    Except LoadError (List Marker × Nat) :=
  if lines = [] then .error .emptyInput
  else
    let dataStart := findDataStart lines
    if lines.length ≤ dataStart then .error .noData
    else
      let headerLine := pyStrip (lines.getD dataStart "")
      let headers := (pySplitTab headerLine).map pyStrip
      if !expectedHeaders.all (fun h => headers.contains h) then
        .error (.invalidHeader headers)
      else
        .ok (parseDataLines maxMarkers (lines.drop (dataStart + 1)) 0 0)

/-! ### Serializer (`write_toml_file`) -/

/-- Fixed-point rendering with 6 decimals (the f-string `:.6f` of lines
246-248).  Rounds half away from zero on the exact rational; Python
rounds the nearest IEEE double half-to-even — the two can differ only in
the final digit of a exact tie, and no checked property reads these
digits. -/
def formatRat6 (q : ℚ) : String :=
  let n := ((2000000 * q.num + q.den) / (2 * (q.den : Int))).toNat
  let frac := toString (n % 1000000)
  toString (n / 1000000) ++ "." ++
    String.mk (List.replicate (6 - frac.length) '0') ++ frac

/-- The `[[dna]]` block written for one marker (lines 252-262). -/
def markerBlock (m : Marker) : String :=
  "[[dna]]\n" ++
  "allele1 = " ++ toString m.allele1 ++ "\n" ++
  "allele2 = " ++ toString m.allele2 ++ "\n" ++
  "chromosome = " ++ toString m.chromosome ++ "\n" ++
  "position = " ++ toString m.position ++ "\n" ++
  "rsid = \"" ++ m.rsid ++ "\"\n" ++
  "# Original: " ++ m.raw_allele1 ++ "/" ++ m.raw_allele2 ++
    " on chr" ++ m.raw_chromosome ++ " at " ++ toString m.position ++ "\n" ++
  "\n"

/-- Concatenation of all marker blocks (the write loop of line 252). -/
def markerBlocks : List Marker → String
  | [] => ""
  | m :: rest => markerBlock m ++ markerBlocks rest

/-- The fixed head of the output document (lines 239-249), parameterised
by the already-rendered hash and metric strings. -/
def tomlHead (hash crS hetS titvS : String) : String :=
  "# Genetic Data Encoding:\n" ++
  "# Alleles: A=1, T=2, G=3, C=4, Missing=0\n" ++
  "# Chromosomes: 1-22=1-22, X=23, Y=24, MT=25\n" ++
  "\n" ++
  "challenge_hash = \"" ++ hash ++ "\"\n" ++
  "min_call_rate = \"" ++ crS ++ "\"\n" ++
  "min_heterozygosity_rate = \"" ++ hetS ++ "\"\n" ++
  "ti_tv_ratio = \"" ++ titvS ++ "\"\n" ++
  "\n"

/-- The full document text produced by `write_toml_file` (lines 217-269)
for a marker list.  (The source refuses an empty list at line 221 and
performs file I/O; the content written is this string.) -/
def write_toml_content (markers : List Marker) : String :=
  let qm := calculate_quality_metrics markers
  tomlHead (generate_challenge_hash markers)
    (formatRat6 qm.1) (formatRat6 qm.2.1) (formatRat6 qm.2.2) ++
  markerBlocks markers

/-! ### Output validator (`validate_toml_output`) -/

/-- The four required summary keys of line 293. -/
def requiredFields : List String :=
  ["challenge_hash", "min_call_rate", "min_heterozygosity_rate", "ti_tv_ratio"]

/-- `validate_toml_output` (lines 281-313) on the file content: counts
`[[dna]]` sections, checks the four keys occur, and looks for at least
one encoded allele1 value in 1-4 and one encoded chromosome value in
1-25. -/
def validate_toml_output (content : String) : Bool :=
  let dnaSections := pyCountSubstr content "[[dna]]"
  let missingFields := requiredFields.filter (fun f => !pyContains content f)
  let hasEncodedAlleles :=
    pyContains content "allele1 = 1" || pyContains content "allele1 = 2" ||
    pyContains content "allele1 = 3" || pyContains content "allele1 = 4"
  let hasEncodedChromosomes :=
    (List.range' 1 25).any (fun i => pyContains content ("chromosome = " ++ toString i))
  decide (0 < dnaSections) && missingFields.isEmpty &&
    hasEncodedAlleles && hasEncodedChromosomes

/-- A marker counted as a missing call, as the claim words it: either
allele code is 0. -/
def missingMarker (m : Marker) : Prop :=
  m.allele1 = 0 ∨ m.allele2 = 0

/-- A heterozygous marker, as the claim words it: both allele codes in
{1,2,3,4} and different. -/
def hetMarker (m : Marker) : Prop :=
  m.allele1 ∈ [1, 2, 3, 4] ∧ m.allele2 ∈ [1, 2, 3, 4] ∧ m.allele1 ≠ m.allele2

/-- A transition, as the claim words it: heterozygous with
ascending-sorted allele-code pair (1,3) or (2,4). -/
def transitionMarker (m : Marker) : Prop :=
  hetMarker m ∧
    ((min m.allele1 m.allele2, max m.allele1 m.allele2) = (1, 3) ∨
     (min m.allele1 m.allele2, max m.allele1 m.allele2) = (2, 4))

/-- A transversion, as the claim words it: heterozygous with
ascending-sorted allele-code pair (1,2), (1,4), (2,3) or (3,4). -/
def transversionMarker (m : Marker) : Prop :=
  hetMarker m ∧
    (min m.allele1 m.allele2, max m.allele1 m.allele2) ∈
      ([(1, 2), (1, 4), (2, 3), (3, 4)] : List (Nat × Nat))

instance decMissingMarker (m : Marker) : Decidable (missingMarker m) := by
  unfold missingMarker
  infer_instance

instance decHetMarker (m : Marker) : Decidable (hetMarker m) := by
  unfold hetMarker
  infer_instance

instance decTransitionMarker (m : Marker) : Decidable (transitionMarker m) := by
  unfold transitionMarker
  infer_instance

instance decTransversionMarker (m : Marker) : Decidable (transversionMarker m) := by
  unfold transversionMarker
  infer_instance

/-- One data line as the loop of lines 169-200 treats it: `none` for a
line that is blank after stripping or fails validation, `some marker`
for a valid row. -/
def rowMarker? (line : String) : Option Marker :=
  let t := pyStrip line
  if t = "" then none
  else
    let fields := lineFields t
    if validate_genetic_marker fields then some (mkMarker fields) else none

/-- The markers of all valid rows in file order, ignoring any cap. -/
def validRowMarkers (lines : List String) : List Marker :=
  lines.filterMap rowMarker?

/-! ### Claims -/

/-- C1: the spec says a non-empty file consisting only of comment lines
fails with `NoDataError`.  In the source, `data_start` keeps its initial
value 0 when the scan never finds a non-comment line, so the guard
`data_start >= len(lines)` of line 151 can never fire on a non-empty
file; the comment line itself is then parsed as the header and the run
fails with the invalid-header error instead.  This theorem evaluates the
embedded loader at such a file. -/
theorem C1_all_comment_file_raises_invalid_header :
    parse_23andme_file ["# comment"] 1000 =
      .error (.invalidHeader ["# comment"]) := by
  rfl

/-- C2 counterexample: the claim says a lowercase allele such as `a` or
`g` passes allele validation; the source's membership test on line 126 is
case-sensitive and rejects this row. -/
theorem C2_counterexample_lowercase_allele_rejected :
    validate_genetic_marker ["rs1", "1", "100", "a", "g"] = false := by
  rfl

/-- C2 amended: the marker validator accepts `allele1`/`allele2` by
case-sensitive membership in the literal token list `A,T,G,C,0,-,D,I`;
lowercase forms fail.  This characterises the whole validator, making
the exact (case-sensitive) allele test explicit. -/
theorem C2_allele_validation_case_sensitive (r c p a1 a2 : String) :
    validate_genetic_marker [r, c, p, a1, a2] = true ↔
      ((pyStartsWith r "rs" = true ∨ pyStartsWith r "i" = true) ∧
       encode_chromosome c ≠ 0 ∧
       (∃ v : Int, parsePyInt p = some v ∧ 0 < v) ∧
       a1 ∈ validAlleleTokens ∧ a2 ∈ validAlleleTokens) := by
  cases hp : parsePyInt p with
  | none => simp [validate_genetic_marker, hp]
  | some v =>
    by_cases h3 : v ≤ 0
    · simp [validate_genetic_marker, hp, h3]
    · simp [validate_genetic_marker, hp, h3, not_le.mp h3]

/-- The encoder tables at the ASCII level (every token either encoder
recognises is ASCII): alleles map case-insensitively with everything
outside `A,T,G,C` (in particular the missing tokens `0,-,D,I`) going to
the sentinel 0; digit-string chromosomes with value 1-22 map to that
value and all other digit strings to 0; letter chromosomes map
case-insensitively `X`→23, `Y`→24, `MT`/`M`→25, and every other token
to 0.  (For the digit path on non-ASCII input, where the source is not
total, see the C5 theorem.) -/
theorem encode_tables_ascii :
    (encode_allele "a" = 1 ∧ encode_allele "A" = 1 ∧
     encode_allele "t" = 2 ∧ encode_allele "T" = 2 ∧
     encode_allele "g" = 3 ∧ encode_allele "G" = 3 ∧
     encode_allele "c" = 4 ∧ encode_allele "C" = 4) ∧
    (∀ s : String, pyUpper s ∉ (["A", "T", "G", "C"] : List String) →
      encode_allele s = 0) ∧
    (∀ n : Nat, 1 ≤ n → n ≤ 22 → encode_chromosome (toString n) = n) ∧
    (∀ s : String, pyIsDigit s = true →
      (digitsToNat s.data < 1 ∨ 22 < digitsToNat s.data) →
      encode_chromosome s = 0) ∧
    (encode_chromosome "x" = 23 ∧ encode_chromosome "X" = 23 ∧
     encode_chromosome "y" = 24 ∧ encode_chromosome "Y" = 24 ∧
     encode_chromosome "mt" = 25 ∧ encode_chromosome "MT" = 25 ∧
     encode_chromosome "Mt" = 25 ∧ encode_chromosome "m" = 25 ∧
     encode_chromosome "M" = 25) ∧
    (∀ s : String, pyIsDigit s = false →
      pyUpper s ∉ (["X", "Y", "MT", "M"] : List String) →
      encode_chromosome s = 0) := by
  refine ⟨by decide, ?_, ?_, ?_, by decide, ?_⟩
  · intro s h
    simp only [List.mem_cons, List.not_mem_nil, or_false] at h
    push_neg at h
    unfold encode_allele
    simp only [h.1, h.2.1, h.2.2.1, h.2.2.2, if_false]
  · intro n h1 h2
    interval_cases n <;> decide
  · intro s hd hrange
    unfold encode_chromosome
    simp only [hd, if_true]
    split_ifs with h
    · omega
    · rfl
  · intro s hd h
    simp only [List.mem_cons, List.not_mem_nil, or_false] at h
    push_neg at h
    unfold encode_chromosome
    simp only [hd, Bool.false_eq_true, if_false, h.1, h.2.1, if_false]
    rw [if_neg]
    rintro (hx | hx)
    · exact h.2.2.1 hx
    · exact h.2.2.2 hx

/-- Two strings with the same character data are equal. -/
theorem strEq_of_data (a b : String) (h : a.data = b.data) : a = b := by
  cases a
  cases b
  exact congrArg String.mk h

/-- The hash buffer over a list with a given accumulator. -/
theorem dataString_foldl (l : List Marker) (a : String) :
    l.foldl (fun acc m => acc ++ markerHashString m) a = a ++ dataString l := by
  induction l generalizing a with
  | nil => simp [dataString, String.append_empty]
  | cons m rest ih =>
    show List.foldl _ (a ++ markerHashString m) rest = _
    rw [ih]
    show _ = a ++ List.foldl _ ("" ++ markerHashString m) rest
    rw [ih ("" ++ markerHashString m), String.empty_append, String.append_assoc]

/-- The hash buffer of a concatenation splits. -/
theorem dataString_append (l₁ l₂ : List Marker) :
    dataString (l₁ ++ l₂) = dataString l₁ ++ dataString l₂ := by
  unfold dataString
  rw [List.foldl_append, dataString_foldl, dataString_foldl, String.empty_append,
    dataString_foldl, String.empty_append]

/-- The hash buffer of a cons. -/
theorem dataString_cons (m : Marker) (l : List Marker) :
    dataString (m :: l) = markerHashString m ++ dataString l := by
  show List.foldl _ ("" ++ markerHashString m) l = _
  rw [dataString_foldl, String.empty_append]

/-- Cancelling a shared prefix and suffix around a swapped middle. -/
theorem listMidSwap {α : Type} (X A Y B Z : List α) :
    X ++ (A ++ (Y ++ (B ++ Z))) = X ++ (B ++ (Y ++ (A ++ Z))) ↔
      A ++ (Y ++ B) = B ++ (Y ++ A) := by
  constructor
  · intro h
    have h1 := List.append_cancel_left h
    have h2 : (A ++ (Y ++ B)) ++ Z = (B ++ (Y ++ A)) ++ Z := by
      simpa [List.append_assoc] using h1
    exact List.append_cancel_right h2
  · intro h
    apply congrArg (X ++ ·)
    calc A ++ (Y ++ (B ++ Z)) = (A ++ (Y ++ B)) ++ Z := by
          simp [List.append_assoc]
      _ = (B ++ (Y ++ A)) ++ Z := by rw [h]
      _ = B ++ (Y ++ (A ++ Z)) := by simp [List.append_assoc]

/-- C3 counterexample: two unequal markers whose encoded field strings
commute as words — `s(m₂)` is `s(m₁)` repeated twice — so swapping them
leaves the concatenated hash buffer, and hence the challenge hash,
unchanged.  The claim says reordering two distinct markers always
changes the fingerprint. -/
theorem C3_counterexample_swap_same_hash :
    (⟨"rs", 1, 1, 1, 1, "", "", ""⟩ : Marker) ≠ ⟨"rs1111rs", 1, 1, 1, 1, "", "", ""⟩ ∧
    generate_challenge_hash
        [⟨"rs", 1, 1, 1, 1, "", "", ""⟩, ⟨"rs1111rs", 1, 1, 1, 1, "", "", ""⟩] =
      generate_challenge_hash
        [⟨"rs1111rs", 1, 1, 1, 1, "", "", ""⟩, ⟨"rs", 1, 1, 1, 1, "", "", ""⟩] :=
  ⟨by decide, congrArg sha256Hex (by decide)⟩

/-- C3 amended: swapping two markers changes the string the hasher
digests exactly when their encoded field strings fail to commute around
the intervening segment; since the fingerprint is a function of that
string, a commuting (hence possibly distinct) pair leaves the challenge
hash unchanged. -/
theorem C3_swap_changes_hash_input_iff (xs ys zs : List Marker) (m1 m2 : Marker) :
    (dataString (xs ++ m1 :: (ys ++ m2 :: zs)) =
        dataString (xs ++ m2 :: (ys ++ m1 :: zs)) ↔
      markerHashString m1 ++ dataString ys ++ markerHashString m2 =
        markerHashString m2 ++ dataString ys ++ markerHashString m1) ∧
    (dataString (xs ++ m1 :: (ys ++ m2 :: zs)) =
        dataString (xs ++ m2 :: (ys ++ m1 :: zs)) →
      generate_challenge_hash (xs ++ m1 :: (ys ++ m2 :: zs)) =
        generate_challenge_hash (xs ++ m2 :: (ys ++ m1 :: zs))) := by
  constructor
  · rw [dataString_append, dataString_append, dataString_cons, dataString_cons,
      dataString_append, dataString_append, dataString_cons, dataString_cons]
    constructor
    · intro h
      have hd := congrArg String.data h
      simp only [String.data_append, List.append_assoc] at hd
      apply strEq_of_data
      simp only [String.data_append, List.append_assoc]
      exact (listMidSwap _ _ _ _ _).mp hd
    · intro h
      have hd := congrArg String.data h
      simp only [String.data_append, List.append_assoc] at hd
      apply strEq_of_data
      simp only [String.data_append, List.append_assoc]
      exact (listMidSwap _ _ _ _ _).mpr hd
  · intro h
    unfold generate_challenge_hash
    rw [h]

/-- C3 witness: the iff theorem applied at the commuting concrete pair,
showing the swapped two-marker sequences hash identically. -/
theorem C3_witness :
    generate_challenge_hash
        [⟨"rs", 1, 1, 1, 1, "", "", ""⟩, ⟨"rs1111rs", 1, 1, 1, 1, "", "", ""⟩] =
      generate_challenge_hash
        [⟨"rs1111rs", 1, 1, 1, 1, "", "", ""⟩, ⟨"rs", 1, 1, 1, 1, "", "", ""⟩] :=
  (C3_swap_changes_hash_input_iff [] [] []
      ⟨"rs", 1, 1, 1, 1, "", "", ""⟩ ⟨"rs1111rs", 1, 1, 1, 1, "", "", ""⟩).2
    (by decide)

/-- The comment scan lands on the first non-comment line. -/
theorem findDataStartAux_comments (pre : List String) (w : String)
    (tail : List String) (i : Nat)
    (hpre : ∀ l ∈ pre, pyStartsWith (pyStrip l) "#" = true)
    (hw : pyStartsWith (pyStrip w) "#" = false) :
    findDataStartAux (pre ++ w :: tail) i = i + pre.length := by
  induction pre generalizing i with
  | nil => simp [findDataStartAux, hw]
  | cons a as ih =>
    have ha := hpre a (by simp)
    simp only [List.cons_append, findDataStartAux, ha, Bool.not_true,
      Bool.false_eq_true, if_false, List.length_cons, List.append_eq]
    rw [ih (i + 1) (fun l hl => hpre l (by simp [hl]))]
    omega

/-- C10: a whitespace-only line sitting between the comment prefix and
the real header is itself taken as the header line; splitting it yields
the single empty header token, so the loader fails with the
invalid-header error. -/
theorem C10_blank_line_before_header_invalid (pre : List String)
    (w hdr : String) (rest : List String) (maxM : Nat)
    (hpre : ∀ l ∈ pre, pyStartsWith (pyStrip l) "#" = true)
    (hw : pyStrip w = "") :
    parse_23andme_file (pre ++ w :: hdr :: rest) maxM =
      .error (.invalidHeader [""]) := by
  have hw' : pyStartsWith (pyStrip w) "#" = false := by rw [hw]; rfl
  have hfind : findDataStart (pre ++ w :: hdr :: rest) = pre.length := by
    unfold findDataStart
    rw [findDataStartAux_comments pre w (hdr :: rest) 0 hpre hw']
    omega
  have hget : (pre ++ w :: hdr :: rest).getD pre.length "" = w := by
    rw [List.getD_eq_getElem?_getD, List.getElem?_append_right (le_refl _)]
    simp
  unfold parse_23andme_file
  rw [if_neg (by simp)]
  simp only [hfind, hget, hw]
  rw [if_neg (by simp only [List.length_append, List.length_cons]; omega)]
  rw [if_pos (by decide)]
  rfl

/-- C10 witness: the theorem applied to a concrete three-line file whose
comment is followed by a whitespace-only line and then the real header. -/
theorem C10_witness :
    parse_23andme_file
        ["# c", " ", "rsid\tchromosome\tposition\tallele1\tallele2"] 5 =
      .error (.invalidHeader [""]) :=
  C10_blank_line_before_header_invalid ["# c"] " "
    "rsid\tchromosome\tposition\tallele1\tallele2" [] 5
    (by decide) (by decide)

/-- On ASCII characters the Unicode digit class coincides with the
ASCII one: the superscript digits and the non-ASCII decimal ranges all
lie above code point 127. -/
theorem pyCharIsDigit_ascii (c : Char) (hc : c.toNat < 128) :
    pyCharIsDigit c = c.isDigit := by
  unfold pyCharIsDigit pyCharDecimal?
  cases hb : c.isDigit with
  | true => simp [hb]
  | false =>
    rw [if_neg (by simp [hb]), if_neg (by omega)]
    rw [decide_eq_false (by omega : ¬c.toNat = 178),
      decide_eq_false (by omega : ¬c.toNat = 179),
      decide_eq_false (by omega : ¬c.toNat = 185)]
    rfl

/-- Pointwise equal predicates give equal `all`. -/
theorem all_eq_on (l : List Char) (p q : Char → Bool)
    (h : ∀ c ∈ l, p c = q c) : l.all p = l.all q := by
  induction l with
  | nil => rfl
  | cons c cs ih =>
    simp only [List.all_cons, h c (by simp)]
    rw [ih (fun x hx => h x (by simp [hx]))]

/-- On a run of ASCII digits, `int()` succeeds with the familiar digit
values. -/
theorem mapM_decimal (cs : List Char) (h : ∀ c ∈ cs, c.isDigit = true) :
    decimalValues? cs = some (cs.map (fun c => c.toNat - 48)) := by
  induction cs with
  | nil => rfl
  | cons c rest ih =>
    have hc := h c (by simp)
    have hr := ih (fun x hx => h x (by simp [hx]))
    simp [decimalValues?, pyCharDecimal?, hc, hr]

/-- C5: the claim says both encoders "never fail for any text input"
and map every unrecognized token to the sentinel 0.  Under Python's
Unicode semantics the digit guard of `encode_chromosome` does not
protect the `int()` call: `'²'.isdigit()` is true but `int('²')`
raises, so `encode_chromosome "²"` fails instead of returning (first
conjunct), and `int("٣") = 3`, so the non-table token `"٣"` maps to 3
rather than 0 (second conjunct).  On ASCII input — covering every token
the table recognises — the function is total and agrees with the ASCII
embedding the other claims use (third conjunct); `encode_allele` alone
is total as claimed, its lookup carrying an explicit default. -/
theorem C5_encode_chromosome_not_total :
    encode_chromosome_unicode "²" = none ∧
    encode_chromosome_unicode "٣" = some 3 ∧
    (∀ s : String, (∀ c ∈ s.data, c.toNat < 128) →
      encode_chromosome_unicode s = some (encode_chromosome s)) := by
  refine ⟨by decide, by decide, ?_⟩
  intro s hs
  have hdig : pyIsDigitUnicode s = pyIsDigit s := by
    unfold pyIsDigitUnicode pyIsDigit
    rw [all_eq_on s.data pyCharIsDigit Char.isDigit
      (fun c hc => pyCharIsDigit_ascii c (hs c hc))]
  unfold encode_chromosome_unicode encode_chromosome
  cases hb : pyIsDigit s with
  | true =>
    rw [hdig, hb, if_pos rfl, if_pos rfl]
    have halldig : ∀ c ∈ s.data, c.isDigit = true := by
      unfold pyIsDigit at hb
      rw [Bool.and_eq_true] at hb
      exact fun c hc => List.all_eq_true.mp hb.2 c hc
    unfold pyIntOfDigits?
    rw [mapM_decimal s.data halldig]
    simp only [Option.map_some']
    rw [List.foldl_map]
    rfl
  | false =>
    rw [hdig, hb]
    simp only [Bool.false_eq_true, if_false]
    split_ifs <;> rfl

/-- C5 witness: the ASCII-agreement clause of the theorem evaluated at
concrete recognised and rejected tokens. -/
theorem C5_witness :
    encode_chromosome_unicode "mt" = some (encode_chromosome "mt") ∧
    encode_chromosome_unicode "23" = some (encode_chromosome "23") :=
  ⟨C5_encode_chromosome_not_total.2.2 "mt" (by decide),
   C5_encode_chromosome_not_total.2.2 "23" (by decide)⟩

/-- Once the cap is reached the data loop stops immediately. -/
theorem parseDataLines_stop (maxM : Nat) (l : List String) (p s : Nat)
    (h : maxM ≤ p) : parseDataLines maxM l p s = ([], s) := by
  cases l with
  | nil => rfl
  | cons line rest =>
    unfold parseDataLines
    rw [if_pos h]

/-- The markers produced by the data loop are the first `maxM - p` valid
row markers. -/
theorem parseDataLines_markers (maxM : Nat) (l : List String) (p s : Nat) :
    (parseDataLines maxM l p s).1 = (validRowMarkers l).take (maxM - p) := by
  induction l generalizing p s with
  | nil => simp [parseDataLines, validRowMarkers]
  | cons line rest ih =>
    by_cases hp : maxM ≤ p
    · rw [parseDataLines_stop maxM _ p s hp]
      rw [Nat.sub_eq_zero_of_le hp, List.take_zero]
    · unfold parseDataLines
      rw [if_neg hp]
      by_cases ht : pyStrip line = ""
      · have hrow : rowMarker? line = none := by simp [rowMarker?, ht]
        simp only [ht, if_pos rfl, validRowMarkers, List.filterMap_cons, hrow]
        exact ih p s
      · by_cases hv : validate_genetic_marker (lineFields (pyStrip line)) = true
        · have hrow : rowMarker? line = some (mkMarker (lineFields (pyStrip line))) := by
            simp [rowMarker?, ht, hv]
          simp only [if_neg ht, hv, if_true, validRowMarkers,
            List.filterMap_cons, hrow]
          have htake : maxM - p = (maxM - (p + 1)) + 1 := by omega
          rw [htake, List.take_succ_cons]
          rw [show (List.filterMap rowMarker? rest) = validRowMarkers rest from rfl]
          rw [← ih (p + 1) s]
        · have hrow : rowMarker? line = none := by simp [rowMarker?, ht, hv]
          simp only [if_neg ht, hv, Bool.false_eq_true, if_false, validRowMarkers,
            List.filterMap_cons, hrow]
          exact ih p (s + 1)

/-- Lines after the cap has been reached are never examined: appending
anything beyond a region already holding enough valid rows leaves the
loop's entire result (markers and skip count) unchanged. -/
theorem parseDataLines_extend (maxM : Nat) (l extra : List String) (p s : Nat)
    (h : maxM ≤ p + (validRowMarkers l).length) :
    parseDataLines maxM (l ++ extra) p s = parseDataLines maxM l p s := by
  induction l generalizing p s with
  | nil =>
    simp only [validRowMarkers, List.filterMap_nil, List.length_nil,
      Nat.add_zero] at h
    simp only [List.nil_append]
    rw [parseDataLines_stop maxM extra p s h]
    rfl
  | cons line rest ih =>
    by_cases hp : maxM ≤ p
    · rw [parseDataLines_stop maxM _ p s hp, parseDataLines_stop maxM _ p s hp]
    · show parseDataLines maxM (line :: (rest ++ extra)) p s = _
      unfold parseDataLines
      rw [if_neg hp, if_neg hp]
      by_cases ht : pyStrip line = ""
      · have hrow : rowMarker? line = none := by simp [rowMarker?, ht]
        simp only [ht, if_pos rfl]
        apply ih
        simp only [validRowMarkers, List.filterMap_cons, hrow] at h
        exact h
      · by_cases hv : validate_genetic_marker (lineFields (pyStrip line)) = true
        · have hrow : rowMarker? line = some (mkMarker (lineFields (pyStrip line))) := by
            simp [rowMarker?, ht, hv]
          simp only [if_neg ht, hv, if_true]
          have harg : maxM ≤ (p + 1) + (validRowMarkers rest).length := by
            simp only [validRowMarkers, List.filterMap_cons, hrow,
              List.length_cons] at h
            simp only [validRowMarkers]
            omega
          rw [ih (p + 1) s harg]
        · have hrow : rowMarker? line = none := by simp [rowMarker?, ht, hv]
          simp only [if_neg ht, hv, Bool.false_eq_true, if_false]
          apply ih
          simp only [validRowMarkers, List.filterMap_cons, hrow] at h
          exact h

/-- C6: with `N` valid rows in the data region and a cap `M < N`, the
data loop returns exactly the markers of the first `M` valid rows in
file order, and any lines beyond the point where the cap is reached are
neither validated nor counted as skipped (appending them changes
nothing, including the skip count). -/
theorem C6_cap_enforcement (lines extra : List String) (M : Nat)
    (h : M < (validRowMarkers lines).length) :
    (parseDataLines M lines 0 0).1 = (validRowMarkers lines).take M ∧
    (parseDataLines M lines 0 0).1.length = M ∧
    parseDataLines M (lines ++ extra) 0 0 = parseDataLines M lines 0 0 := by
  refine ⟨?_, ?_, ?_⟩
  · simpa using parseDataLines_markers M lines 0 0
  · have hm := parseDataLines_markers M lines 0 0
    simp only [Nat.sub_zero] at hm
    rw [hm, List.length_take]
    omega
  · exact parseDataLines_extend M lines extra 0 0 (by omega)

/-- C6 witness: a concrete data region with three valid rows capped at
two markers; an appended extra row does not change the outcome. -/
theorem C6_witness :
    (parseDataLines 2 ["rs1\t1\t10\tA\tG", "bad line", "rs2\t2\t20\tC\tC",
        "rs3\tX\t30\tT\tT"] 0 0).1 =
      (validRowMarkers ["rs1\t1\t10\tA\tG", "bad line", "rs2\t2\t20\tC\tC",
        "rs3\tX\t30\tT\tT"]).take 2 ∧
    (parseDataLines 2 ["rs1\t1\t10\tA\tG", "bad line", "rs2\t2\t20\tC\tC",
        "rs3\tX\t30\tT\tT"] 0 0).1.length = 2 ∧
    parseDataLines 2 (["rs1\t1\t10\tA\tG", "bad line", "rs2\t2\t20\tC\tC",
        "rs3\tX\t30\tT\tT"] ++ ["rs9\t1\t1\tA\tA"]) 0 0 =
      parseDataLines 2 ["rs1\t1\t10\tA\tG", "bad line", "rs2\t2\t20\tC\tC",
        "rs3\tX\t30\tT\tT"] 0 0 :=
  C6_cap_enforcement ["rs1\t1\t10\tA\tG", "bad line", "rs2\t2\t20\tC\tC",
    "rs3\tX\t30\tT\tT"] ["rs9\t1\t1\tA\tA"] 2 (by decide)

/-- One iteration of the metric loop, expressed through the claim-side
classification predicates. -/
theorem qualityStep_eq (acc : Nat × Nat × Nat × Nat) (m : Marker) :
    qualityStep acc m =
      (acc.1 + if missingMarker m then 1 else 0,
       acc.2.1 + if hetMarker m then 1 else 0,
       acc.2.2.1 + if transitionMarker m then 1 else 0,
       acc.2.2.2 + if transversionMarker m then 1 else 0) := by
  obtain ⟨mi, he, ti, tv⟩ := acc
  simp only [qualityStep]
  by_cases h1 : m.allele1 = 0 ∨ m.allele2 = 0
  · have hhet : ¬hetMarker m := by
      rintro ⟨ha1, ha2, -⟩
      simp only [List.mem_cons, List.not_mem_nil, or_false] at ha1 ha2
      rcases h1 with h1 | h1 <;> omega
    rw [if_pos h1, if_pos (show missingMarker m from h1), if_neg hhet,
      if_neg (fun h => hhet h.1 : ¬transitionMarker m),
      if_neg (fun h => hhet h.1 : ¬transversionMarker m)]
    simp
  · rw [if_neg h1, if_neg (show ¬missingMarker m from h1)]
    by_cases h2 : (m.allele1 ∈ [1, 2, 3, 4] ∧ m.allele2 ∈ [1, 2, 3, 4] : Prop)
    · rw [if_pos h2]
      by_cases h3 : m.allele1 ≠ m.allele2
      · rw [if_pos h3]
        have hhet : hetMarker m := ⟨h2.1, h2.2, h3⟩
        rw [if_pos hhet]
        by_cases h4 : (min m.allele1 m.allele2 = 1 ∧ max m.allele1 m.allele2 = 3) ∨
            (min m.allele1 m.allele2 = 2 ∧ max m.allele1 m.allele2 = 4)
        · have hti : transitionMarker m := by
            refine ⟨hhet, ?_⟩
            rcases h4 with ⟨hx, hy⟩ | ⟨hx, hy⟩
            · exact Or.inl (by rw [hx, hy])
            · exact Or.inr (by rw [hx, hy])
          have htv : ¬transversionMarker m := by
            rintro ⟨-, hmem⟩
            simp only [List.mem_cons, List.not_mem_nil, or_false, Prod.mk.injEq] at hmem
            rcases h4 with ⟨hx, hy⟩ | ⟨hx, hy⟩ <;> omega
          rw [if_pos h4, if_pos hti, if_neg htv]
          simp
        · rw [if_neg h4]
          have hti : ¬transitionMarker m := by
            rintro ⟨-, hp | hp⟩ <;>
              [exact h4 (Or.inl ⟨congrArg Prod.fst hp, congrArg Prod.snd hp⟩);
               exact h4 (Or.inr ⟨congrArg Prod.fst hp, congrArg Prod.snd hp⟩)]
          rw [if_neg hti]
          by_cases h5 : ((min m.allele1 m.allele2, max m.allele1 m.allele2) ∈
              ([(1, 2), (1, 4), (2, 3), (3, 4)] : List (Nat × Nat)) : Prop)
          · have htv : transversionMarker m := ⟨hhet, h5⟩
            rw [if_pos h5, if_pos htv]
            simp
          · have htv : ¬transversionMarker m := fun h => h5 h.2
            rw [if_neg h5, if_neg htv]
            simp
      · rw [if_neg h3]
        have hhet : ¬hetMarker m := fun h => h3 h.2.2
        rw [if_neg hhet, if_neg (fun h => hhet h.1 : ¬transitionMarker m),
          if_neg (fun h => hhet h.1 : ¬transversionMarker m)]
        simp
    · rw [if_neg h2]
      have hhet : ¬hetMarker m := fun h => h2 ⟨h.1, h.2.1⟩
      rw [if_neg hhet, if_neg (fun h => hhet h.1 : ¬transitionMarker m),
        if_neg (fun h => hhet h.1 : ¬transversionMarker m)]
      simp

/-- The metric fold counts each classification predicate. -/
theorem qualityCounts_go (l : List Marker) (acc : Nat × Nat × Nat × Nat) :
    l.foldl qualityStep acc =
      (acc.1 + l.countP (fun m => decide (missingMarker m)),
       acc.2.1 + l.countP (fun m => decide (hetMarker m)),
       acc.2.2.1 + l.countP (fun m => decide (transitionMarker m)),
       acc.2.2.2 + l.countP (fun m => decide (transversionMarker m))) := by
  induction l generalizing acc with
  | nil => simp
  | cons m rest ih =>
    rw [List.foldl_cons, qualityStep_eq, ih]
    simp only [List.countP_cons, decide_eq_true_eq]
    refine Prod.ext ?_ (Prod.ext ?_ (Prod.ext ?_ ?_)) <;> simp <;>
      split_ifs <;> omega

/-- The four loop counters equal the counts of the claim-side
classification predicates. -/
theorem qualityCounts_spec (l : List Marker) :
    qualityCounts l =
      (l.countP (fun m => decide (missingMarker m)),
       l.countP (fun m => decide (hetMarker m)),
       l.countP (fun m => decide (transitionMarker m)),
       l.countP (fun m => decide (transversionMarker m))) := by
  unfold qualityCounts
  rw [qualityCounts_go]
  simp

/-- C7: the analyzer counts as transitions exactly the heterozygous
markers whose sorted allele pair is (1,3) or (2,4), as transversions
exactly those with sorted pair (1,2), (1,4), (2,3) or (3,4), and returns
`ti_tv_ratio` = transitions / transversions, or 0 when the transversion
count is 0 (including the empty-input short-circuit). -/
theorem C7_titv_classification (markers : List Marker) :
    (qualityCounts markers).2.2.1 =
      markers.countP (fun m => decide (transitionMarker m)) ∧
    (qualityCounts markers).2.2.2 =
      markers.countP (fun m => decide (transversionMarker m)) ∧
    (calculate_quality_metrics markers).2.2 =
      (if markers.countP (fun m => decide (transversionMarker m)) = 0 then 0
       else (markers.countP (fun m => decide (transitionMarker m)) : ℚ) /
         markers.countP (fun m => decide (transversionMarker m))) := by
  refine ⟨by rw [qualityCounts_spec], by rw [qualityCounts_spec], ?_⟩
  unfold calculate_quality_metrics
  by_cases h0 : markers = []
  · subst h0
    simp
  · rw [if_neg h0, qualityCounts_spec]
    rcases Nat.eq_zero_or_pos
        (markers.countP (fun m => decide (transversionMarker m))) with h | h
    · simp [h]
    · show (if 0 < markers.countP (fun m => decide (transversionMarker m)) then
          mkRat (markers.countP (fun m => decide (transitionMarker m)))
            (markers.countP (fun m => decide (transversionMarker m))) else 0) = _
      rw [if_pos h, if_neg (Nat.pos_iff_ne_zero.mp h), Rat.mkRat_eq_div]
      push_cast
      ring

/-- A heterozygous marker is not a missing call. -/
theorem hetMarker_not_missing (m : Marker) (h : hetMarker m) : ¬missingMarker m := by
  obtain ⟨h1, h2, -⟩ := h
  simp only [List.mem_cons, List.not_mem_nil, or_false] at h1 h2
  rintro (h0 | h0) <;> omega

/-- C8: for a non-empty marker list with allele codes in {0,…,4}, the
call rate and heterozygosity rate lie in [0,1] and the Ti/Tv ratio is
non-negative. -/
theorem C8_rate_bounds (markers : List Marker) (hne : markers ≠ [])
    (hcodes : ∀ m ∈ markers, m.allele1 ≤ 4 ∧ m.allele2 ≤ 4) :
    0 ≤ (calculate_quality_metrics markers).1 ∧
    (calculate_quality_metrics markers).1 ≤ 1 ∧
    0 ≤ (calculate_quality_metrics markers).2.1 ∧
    (calculate_quality_metrics markers).2.1 ≤ 1 ∧
    0 ≤ (calculate_quality_metrics markers).2.2 := by
  have hmet : calculate_quality_metrics markers =
      ((if 0 < markers.length then
          mkRat (markers.length - markers.countP (fun m => decide (missingMarker m)) : ℕ)
            markers.length else 0),
       (if 0 < markers.length - markers.countP (fun m => decide (missingMarker m)) then
          mkRat (markers.countP (fun m => decide (hetMarker m)))
            (markers.length - markers.countP (fun m => decide (missingMarker m)))
        else 0),
       (if 0 < markers.countP (fun m => decide (transversionMarker m)) then
          mkRat (markers.countP (fun m => decide (transitionMarker m)))
            (markers.countP (fun m => decide (transversionMarker m))) else 0)) := by
    unfold calculate_quality_metrics
    rw [if_neg hne, qualityCounts_spec]
  have hT : 0 < markers.length := List.length_pos.mpr hne
  have hHle : markers.countP (fun m => decide (hetMarker m)) ≤
      markers.length - markers.countP (fun m => decide (missingMarker m)) := by
    have hmono : markers.countP (fun m => decide (hetMarker m)) ≤
        markers.countP (fun m => decide ¬missingMarker m) := by
      apply List.countP_mono_left
      intro m _ hm
      simp only [decide_eq_true_eq] at hm ⊢
      exact hetMarker_not_missing m hm
    have hsplit := List.length_eq_countP_add_countP
      (l := markers) (fun m => decide (missingMarker m))
    simp only [decide_not, decide_eq_true_eq] at hmono hsplit
    have hsum : markers.countP (fun m => decide (hetMarker m)) +
        markers.countP (fun m => decide (missingMarker m)) ≤ markers.length := by
      omega
    exact Nat.le_sub_of_add_le hsum
  rw [hmet]
  dsimp only
  simp only [Rat.mkRat_eq_div]
  push_cast
  refine ⟨?_, ?_, ?_, ?_, ?_⟩
  · rw [if_pos hT]
    exact div_nonneg (Nat.cast_nonneg _) (Nat.cast_nonneg _)
  · rw [if_pos hT]
    rw [div_le_one (by exact_mod_cast hT)]
    exact_mod_cast Nat.sub_le _ _
  · split_ifs with hv
    · exact div_nonneg (Nat.cast_nonneg _) (Nat.cast_nonneg _)
    · exact le_refl 0
  · split_ifs with hv
    · rw [div_le_one (by exact_mod_cast hv)]
      exact_mod_cast hHle
    · norm_num
  · split_ifs with hv
    · exact div_nonneg (Nat.cast_nonneg _) (Nat.cast_nonneg _)
    · exact le_refl 0

/-- C8 witness: the bounds at a concrete one-marker list. -/
theorem C8_witness :
    0 ≤ (calculate_quality_metrics [⟨"rs1", 1, 100, 1, 3, "1", "A", "G"⟩]).1 ∧
    (calculate_quality_metrics [⟨"rs1", 1, 100, 1, 3, "1", "A", "G"⟩]).1 ≤ 1 ∧
    0 ≤ (calculate_quality_metrics [⟨"rs1", 1, 100, 1, 3, "1", "A", "G"⟩]).2.1 ∧
    (calculate_quality_metrics [⟨"rs1", 1, 100, 1, 3, "1", "A", "G"⟩]).2.1 ≤ 1 ∧
    0 ≤ (calculate_quality_metrics [⟨"rs1", 1, 100, 1, 3, "1", "A", "G"⟩]).2.2 :=
  C8_rate_bounds [⟨"rs1", 1, 100, 1, 3, "1", "A", "G"⟩]
    (by decide) (by decide)

/-- C9: the quality metrics read nothing but the two allele-code fields:
marker lists that agree pairwise on `allele1` and `allele2` produce
identical metric triples, whatever their id, chromosome, position, or
preserved raw text. -/
theorem C9_metrics_depend_only_on_alleles (l1 l2 : List Marker)
    (h : List.Forall₂
      (fun a b : Marker => a.allele1 = b.allele1 ∧ a.allele2 = b.allele2) l1 l2) :
    calculate_quality_metrics l1 = calculate_quality_metrics l2 := by
  have hcount : ∀ p : Marker → Bool,
      (∀ x y : Marker, x.allele1 = y.allele1 → x.allele2 = y.allele2 → p x = p y) →
      l1.countP p = l2.countP p := by
    intro p hp
    induction h with
    | nil => rfl
    | cons hab hrest ih =>
      rw [List.countP_cons, List.countP_cons, ih, hp _ _ hab.1 hab.2]
  have hq : qualityCounts l1 = qualityCounts l2 := by
    rw [qualityCounts_spec, qualityCounts_spec,
      hcount (fun m => decide (missingMarker m))
        (fun x y h1 h2 => by simp [missingMarker, h1, h2]),
      hcount (fun m => decide (hetMarker m))
        (fun x y h1 h2 => by simp [hetMarker, h1, h2]),
      hcount (fun m => decide (transitionMarker m))
        (fun x y h1 h2 => by simp [transitionMarker, hetMarker, h1, h2]),
      hcount (fun m => decide (transversionMarker m))
        (fun x y h1 h2 => by simp [transversionMarker, hetMarker, h1, h2])]
  have hlen : l1.length = l2.length := h.length_eq
  unfold calculate_quality_metrics
  by_cases h0 : l1 = []
  · subst h0
    cases h
    rfl
  · have h0' : l2 ≠ [] := by
      intro he
      subst he
      cases h
      exact h0 rfl
    rw [if_neg h0, if_neg h0', hq, hlen]

/-- C9 witness: two one-marker lists sharing only their allele codes get
identical metrics. -/
theorem C9_witness :
    calculate_quality_metrics [⟨"rsA", 1, 10, 1, 3, "1", "A", "G"⟩] =
      calculate_quality_metrics [⟨"rsB", 23, 999, 1, 3, "X", "a", "g"⟩] :=
  C9_metrics_depend_only_on_alleles
    [⟨"rsA", 1, 10, 1, 3, "1", "A", "G"⟩]
    [⟨"rsB", 23, 999, 1, 3, "X", "a", "g"⟩]
    (List.Forall₂.cons ⟨rfl, rfl⟩ List.Forall₂.nil)

/-- A list is a Boolean prefix of itself followed by anything. -/
theorem isPrefixOf_self_append (p t : List Char) : p.isPrefixOf (p ++ t) = true := by
  induction p with
  | nil => simp [List.isPrefixOf]
  | cons c cs ih => simp [List.isPrefixOf, ih]

/-- Boolean prefixes extend along appends. -/
theorem isPrefixOf_extend (p X Y : List Char) (h : p.isPrefixOf X = true) :
    p.isPrefixOf (X ++ Y) = true := by
  induction p generalizing X with
  | nil => simp [List.isPrefixOf]
  | cons a as ih =>
    cases X with
    | nil => cases h
    | cons b bs =>
      simp only [List.isPrefixOf, Bool.and_eq_true] at h
      simp [List.isPrefixOf, h.1, ih bs h.2]

/-- The empty pattern is contained everywhere. -/
theorem containsSub_nil (l : List Char) : containsSub [] l = true := by
  cases l <;> simp [containsSub]

/-- A pattern is contained in itself followed by anything. -/
theorem containsSub_self (p t : List Char) : containsSub p (p ++ t) = true := by
  cases p with
  | nil => exact containsSub_nil t
  | cons c cs => simp [containsSub, isPrefixOf_self_append]

/-- Containment survives consing on the left. -/
theorem containsSub_cons (p : List Char) (c : Char) (l : List Char)
    (h : containsSub p l = true) : containsSub p (c :: l) = true := by
  simp [containsSub, h]

/-- Containment in the right part of an append. -/
theorem containsSub_append_left (A B p : List Char)
    (h : containsSub p B = true) : containsSub p (A ++ B) = true := by
  induction A with
  | nil => exact h
  | cons c as ih => exact containsSub_cons p c (as ++ B) ih

/-- Containment in the left part of an append. -/
theorem containsSub_append_right (A B p : List Char)
    (h : containsSub p A = true) : containsSub p (A ++ B) = true := by
  induction A with
  | nil =>
    simp only [containsSub] at h
    rw [List.isEmpty_iff] at h
    subst h
    exact containsSub_nil B
  | cons c as ih =>
    simp only [containsSub, Bool.or_eq_true] at h
    rcases h with h | h
    · simp only [List.cons_append, containsSub, Bool.or_eq_true]
      exact Or.inl (isPrefixOf_extend _ _ _ h)
    · exact containsSub_cons p c (as ++ B) (ih h)

/-- `pyContains` through the right part of an append. -/
theorem pyContains_append_left (s t pat : String)
    (h : pyContains t pat = true) : pyContains (s ++ t) pat = true := by
  unfold pyContains at h ⊢
  rw [String.data_append]
  exact containsSub_append_left _ _ _ h

/-- `pyContains` through the left part of an append. -/
theorem pyContains_append_right (s t pat : String)
    (h : pyContains s pat = true) : pyContains (s ++ t) pat = true := by
  unfold pyContains at h ⊢
  rw [String.data_append]
  exact containsSub_append_right _ _ _ h

/-- `pyContains` of a pattern at the front. -/
theorem pyContains_self_append (pat t : String) :
    pyContains (pat ++ t) pat = true := by
  unfold pyContains
  rw [String.data_append]
  exact containsSub_self _ _

/-- A contained non-empty pattern is counted at least once. -/
theorem countOccGo_pos (pat : List Char) (hne : pat ≠ []) (fuel : Nat) :
    ∀ l : List Char, l.length ≤ fuel → containsSub pat l = true →
      0 < countOccGo pat fuel l := by
  induction fuel with
  | zero =>
    intro l hl hc
    rw [Nat.le_zero, List.length_eq_zero] at hl
    subst hl
    simp only [containsSub, List.isEmpty_iff] at hc
    exact absurd hc hne
  | succ f ih =>
    intro l hl hc
    cases l with
    | nil =>
      simp only [containsSub, List.isEmpty_iff] at hc
      exact absurd hc hne
    | cons c rest =>
      simp only [countOccGo]
      split_ifs with hp
      · omega
      · have hl' : rest.length ≤ f := by
          simp only [List.length_cons] at hl
          omega
        simp only [containsSub, Bool.or_eq_true] at hc
        rcases hc with hc | hc
        · exact absurd hc hp
        · exact ih rest hl' hc

/-- A contained non-empty pattern has positive Python `count`. -/
theorem pyCountSubstr_pos (s pat : String) (hne : pat.data ≠ [])
    (hc : pyContains s pat = true) : 0 < pyCountSubstr s pat := by
  unfold pyCountSubstr
  rw [if_neg (by simpa using hne)]
  exact countOccGo_pos pat.data hne s.data.length s.data (le_refl _) hc

/-- A pattern contained in the block of a listed marker is contained in
the concatenation of all blocks. -/
theorem pyContains_blocks (pat : String) (m : Marker) (l : List Marker)
    (hm : m ∈ l) (h : pyContains (markerBlock m) pat = true) :
    pyContains (markerBlocks l) pat = true := by
  induction l with
  | nil => cases hm
  | cons m' l' ih =>
    show pyContains (markerBlock m' ++ markerBlocks l') pat = true
    rcases List.mem_cons.mp hm with rfl | hm'
    · exact pyContains_append_right _ _ _ h
    · exact pyContains_append_left _ _ _ (ih hm')

/-- A string contains itself. -/
theorem pyContains_refl (s : String) : pyContains s s = true := by
  unfold pyContains
  have h := containsSub_self s.data []
  rwa [List.append_nil] at h

/-- The two final segments of a left-associated append chain are found as
one contiguous pattern. -/
theorem pyContains_append_pair (X a b : String) :
    pyContains (X ++ a ++ b) (a ++ b) = true := by
  rw [String.append_assoc]
  exact pyContains_append_left _ _ _ (pyContains_refl _)

/-- A pattern opening the final segment of an append is contained. -/
theorem pyContains_append_lit (X a b pat : String) (hsplit : a = pat ++ b) :
    pyContains (X ++ a) pat = true := by
  rw [hsplit]
  exact pyContains_append_left _ _ _ (pyContains_self_append _ _)

/-- A pattern opening a string is contained in it. -/
theorem pyContains_of_split (a pat b : String) (h : a = pat ++ b) :
    pyContains a pat = true := by
  rw [h]
  exact pyContains_self_append _ _

/-- Each of the four required summary keys occurs in the document head,
whatever the rendered hash and metric strings are. -/
theorem tomlHead_contains (hash crS hetS titvS : String) :
    pyContains (tomlHead hash crS hetS titvS) "challenge_hash" = true ∧
    pyContains (tomlHead hash crS hetS titvS) "min_call_rate" = true ∧
    pyContains (tomlHead hash crS hetS titvS) "min_heterozygosity_rate" = true ∧
    pyContains (tomlHead hash crS hetS titvS) "ti_tv_ratio" = true := by
  refine ⟨?_, ?_, ?_, ?_⟩ <;> unfold tomlHead
  · iterate 12 apply pyContains_append_right
    exact pyContains_append_lit _ _ " = \"" _ rfl
  · iterate 9 apply pyContains_append_right
    exact pyContains_append_lit _ _ " = \"" _ rfl
  · iterate 6 apply pyContains_append_right
    exact pyContains_append_lit _ _ " = \"" _ rfl
  · iterate 3 apply pyContains_append_right
    exact pyContains_append_lit _ _ " = \"" _ rfl

/-- Every marker block starts with the record marker. -/
theorem markerBlock_contains_dna (m : Marker) :
    pyContains (markerBlock m) "[[dna]]" = true := by
  unfold markerBlock
  iterate 25 apply pyContains_append_right
  exact pyContains_of_split _ _ "\n" rfl

/-- Every marker block shows its own encoded allele1 value. -/
theorem markerBlock_contains_allele (m : Marker) :
    pyContains (markerBlock m) ("allele1 = " ++ toString m.allele1) = true := by
  unfold markerBlock
  iterate 23 apply pyContains_append_right
  exact pyContains_append_pair _ _ _

/-- Every marker block shows its own encoded chromosome value. -/
theorem markerBlock_contains_chromosome (m : Marker) :
    pyContains (markerBlock m) ("chromosome = " ++ toString m.chromosome) = true := by
  unfold markerBlock
  iterate 17 apply pyContains_append_right
  exact pyContains_append_pair _ _ _

/-- C4 amended: the output validator accepts a just-written non-empty
document provided some marker carries an encoded `allele1` in {1,2,3,4}
and some marker a chromosome code in 1..25 (the pipeline guarantees the
latter for every marker it emits). -/
theorem C4_revalidation_needs_encoded_allele (markers : List Marker)
    (hne : markers ≠ [])
    (hall : ∃ m ∈ markers, m.allele1 ∈ ([1, 2, 3, 4] : List Nat))
    (hchr : ∃ m ∈ markers, 1 ≤ m.chromosome ∧ m.chromosome ≤ 25) :
    validate_toml_output (write_toml_content markers) = true := by
  obtain ⟨ma, hma, hka⟩ := hall
  obtain ⟨mc, hmc, hkc⟩ := hchr
  have hsplitc : write_toml_content markers =
      tomlHead (generate_challenge_hash markers)
        (formatRat6 (calculate_quality_metrics markers).1)
        (formatRat6 (calculate_quality_metrics markers).2.1)
        (formatRat6 (calculate_quality_metrics markers).2.2) ++
      markerBlocks markers := rfl
  obtain ⟨m0, rest0, hm0⟩ := List.exists_cons_of_ne_nil hne
  have hdna : pyContains (write_toml_content markers) "[[dna]]" = true := by
    rw [hsplitc]
    apply pyContains_append_left
    rw [hm0]
    show pyContains (markerBlock m0 ++ markerBlocks rest0) "[[dna]]" = true
    exact pyContains_append_right _ _ _ (markerBlock_contains_dna m0)
  have hk1 : pyContains (write_toml_content markers) "challenge_hash" = true := by
    rw [hsplitc]
    exact pyContains_append_right _ _ _ (tomlHead_contains _ _ _ _).1
  have hk2 : pyContains (write_toml_content markers) "min_call_rate" = true := by
    rw [hsplitc]
    exact pyContains_append_right _ _ _ (tomlHead_contains _ _ _ _).2.1
  have hk3 : pyContains (write_toml_content markers)
      "min_heterozygosity_rate" = true := by
    rw [hsplitc]
    exact pyContains_append_right _ _ _ (tomlHead_contains _ _ _ _).2.2.1
  have hk4 : pyContains (write_toml_content markers) "ti_tv_ratio" = true := by
    rw [hsplitc]
    exact pyContains_append_right _ _ _ (tomlHead_contains _ _ _ _).2.2.2
  have hallele : pyContains (write_toml_content markers)
      ("allele1 = " ++ toString ma.allele1) = true := by
    rw [hsplitc]
    exact pyContains_append_left _ _ _
      (pyContains_blocks _ ma markers hma (markerBlock_contains_allele ma))
  have hchromo : pyContains (write_toml_content markers)
      ("chromosome = " ++ toString mc.chromosome) = true := by
    rw [hsplitc]
    exact pyContains_append_left _ _ _
      (pyContains_blocks _ mc markers hmc (markerBlock_contains_chromosome mc))
  have hcnt : 0 < pyCountSubstr (write_toml_content markers) "[[dna]]" :=
    pyCountSubstr_pos _ _ (by decide) hdna
  have hmiss : requiredFields.filter
      (fun f => !pyContains (write_toml_content markers) f) = [] := by
    simp [requiredFields, hk1, hk2, hk3, hk4]
  have ha : (pyContains (write_toml_content markers) "allele1 = 1" ||
      pyContains (write_toml_content markers) "allele1 = 2" ||
      pyContains (write_toml_content markers) "allele1 = 3" ||
      pyContains (write_toml_content markers) "allele1 = 4") = true := by
    simp only [List.mem_cons, List.not_mem_nil, or_false] at hka
    rcases hka with hk | hk | hk | hk <;> rw [hk] at hallele
    · rw [show ("allele1 = " ++ toString (1 : Nat) : String) = "allele1 = 1"
        from rfl] at hallele
      simp [hallele]
    · rw [show ("allele1 = " ++ toString (2 : Nat) : String) = "allele1 = 2"
        from rfl] at hallele
      simp [hallele]
    · rw [show ("allele1 = " ++ toString (3 : Nat) : String) = "allele1 = 3"
        from rfl] at hallele
      simp [hallele]
    · rw [show ("allele1 = " ++ toString (4 : Nat) : String) = "allele1 = 4"
        from rfl] at hallele
      simp [hallele]
  have hc : ((List.range' 1 25).any fun i =>
      pyContains (write_toml_content markers) ("chromosome = " ++ toString i))
        = true := by
    rw [List.any_eq_true]
    exact ⟨mc.chromosome, List.mem_range'_1.mpr ⟨hkc.1, by omega⟩, hchromo⟩
  unfold validate_toml_output
  simp only [hmiss, List.isEmpty_nil, ha, hc, Bool.and_true, Bool.true_and]
  exact decide_eq_true hcnt

/-- C4 witness: a one-marker output with an encoded heterozygous call
re-validates successfully. -/
theorem C4_witness :
    validate_toml_output (write_toml_content
      [⟨"rs1", 1, 100, 1, 3, "1", "A", "G"⟩]) = true :=
  C4_revalidation_needs_encoded_allele [⟨"rs1", 1, 100, 1, 3, "1", "A", "G"⟩]
    (by decide) (by decide) (by decide)

set_option maxRecDepth 8192 in
/-- C4 counterexample: the row `rs1 1 100 D D` is valid, so the pipeline
emits one marker, but both its allele codes encode to 0 (missing); the
written document then contains no `allele1 = 1..4` line and the output
validator reports failure, refuting "always reports success". -/
theorem C4_counterexample_all_missing_alleles_fail_revalidation :
    (parseDataLines 1000 ["rs1\t1\t100\tD\tD"] 0 0).1 =
      [⟨"rs1", 1, 100, 0, 0, "1", "D", "D"⟩] ∧
    ([⟨"rs1", 1, 100, 0, 0, "1", "D", "D"⟩] : List Marker) ≠ [] ∧
    validate_toml_output (write_toml_content
      [⟨"rs1", 1, 100, 0, 0, "1", "D", "D"⟩]) = false :=
  ⟨by decide, by decide, by decide⟩
